import Mathlib

/-!
# Verification of the Ajane revision-based synchronization engine

Shallow embedding of the core of `src/Ajane.h` (the Ajane / EmbAJAX web-widget
framework) together with proofs about its revision-based incremental
synchronization logic.

Machine integers are embedded as `Nat` with explicit reduction modulo `2^16`
(for the `uint16_t` revision counters) respectively `2^8` (for `uint8_t`
indices); `int8_t` values are embedded as `Int` with explicit conversions.

Where a function is only declared in `src/Ajane.h` and its body lives in the
implementation file that is not part of the sources (e.g. the bodies of
`AjaneElement::sendUpdates`, `AjaneElement::changed`, `AjaneCheckButton::setChecked`,
`AjaneBase::handleRequest` and the child-array `AjaneBase::sendUpdates` loop),
the corresponding definition is modelled from the specification and marked as
such in its doc comment.
-/

/-- The modulus of `uint16_t` arithmetic. -/
def u16 : Nat := 65536

/-! ## Change Clock: `AjaneOutputDriverBase` (src/Ajane.h lines 110-144)

The driver base class holds the two `uint16_t` revision counters:
`_revision` (the visible revision) and `next_revision` (the pending revision).
-/

/-- State of `AjaneOutputDriverBase`: the two `uint16_t` fields `_revision`
(visible revision) and `next_revision` (pending revision),
src/Ajane.h lines 142-143. -/
structure AjaneOutputDriverBase where
  _revision : Nat
  next_revision : Nat
deriving DecidableEq, Repr

/-- The constructor `AjaneOutputDriverBase()` (src/Ajane.h lines 112-115):
`_revision = 1; next_revision = _revision;`. -/
def driverCtor : AjaneOutputDriverBase := { _revision := 1, next_revision := 1 }

/-- `revision()` (src/Ajane.h lines 121-123): returns `_revision`. -/
def revision (d : AjaneOutputDriverBase) : Nat := d._revision

/-- `setChanged()` (src/Ajane.h lines 124-127), the spec's `mark_dirty`:
`next_revision = _revision + 1` in `uint16_t` arithmetic. -/
def setChanged (d : AjaneOutputDriverBase) : AjaneOutputDriverBase :=
  { d with next_revision := (d._revision + 1) % u16 }

/-- `nextRevision()` (src/Ajane.h lines 128-130), the spec's `commit`:
`_revision = next_revision`. -/
def nextRevision (d : AjaneOutputDriverBase) : AjaneOutputDriverBase :=
  { d with _revision := d.next_revision }

/-- One operation on the Change Clock: `setChanged` (mark_dirty) or
`nextRevision` (commit). -/
inductive ClockOp where
  | markDirty : ClockOp
  | commit : ClockOp
deriving DecidableEq, Repr

/-- Run one Change Clock operation. -/
def runClockOp (d : AjaneOutputDriverBase) : ClockOp → AjaneOutputDriverBase
  | ClockOp.markDirty => setChanged d
  | ClockOp.commit => nextRevision d

/-- Run a sequence of Change Clock operations from the constructor state. -/
def runClockOps (ops : List ClockOp) : AjaneOutputDriverBase :=
  ops.foldl runClockOp driverCtor

/-- The spec's Change Clock invariant:
`pending_revision ∈ {visible_revision, visible_revision + 1}` (mod `2^16`). -/
def clockInvariant (d : AjaneOutputDriverBase) : Prop :=
  d.next_revision = d._revision ∨ d.next_revision = (d._revision + 1) % u16

theorem clockInvariant_ctor : clockInvariant driverCtor := Or.inl rfl

theorem clockInvariant_step (d : AjaneOutputDriverBase) (op : ClockOp)
    (_h : clockInvariant d) : clockInvariant (runClockOp d op) := by
  cases op with
  | markDirty => exact Or.inr rfl
  | commit => exact Or.inl rfl

theorem clockInvariant_foldl (ops : List ClockOp) (d : AjaneOutputDriverBase)
    (h : clockInvariant d) : clockInvariant (ops.foldl runClockOp d) := by
  induction ops generalizing d with
  | nil => exact h
  | cons op rest ih => exact ih _ (clockInvariant_step d op h)

/-- C1: For every sequence of `setChanged` (mark_dirty) and `nextRevision`
(commit) calls on a Change Clock starting from its initial state, after every
call the invariant `pending_revision ∈ {visible_revision, visible_revision+1}`
(mod `2^16`) holds; `mark_dirty` is idempotent — any number of `mark_dirty`
calls before the next commit coalesce to the same single pending revision —
and commit sets the visible revision equal to the pending revision. -/
theorem C1_change_clock_invariant :
    (∀ ops : List ClockOp, clockInvariant (runClockOps ops))
    ∧ (∀ d : AjaneOutputDriverBase, setChanged (setChanged d) = setChanged d)
    ∧ (∀ d : AjaneOutputDriverBase, (nextRevision d)._revision = d.next_revision) := by
  refine ⟨fun ops => clockInvariant_foldl ops driverCtor clockInvariant_ctor, fun d => ?_, fun d => rfl⟩
  simp [setChanged]

/-- C7: for any sequence of mark_dirty/commit operations, the visible revision
moves by at most one step (mod `2^16`) per operation, i.e. it is non-decreasing
modulo wraparound; commit with nothing pending is a no-op, and two consecutive
commits equal one. -/
theorem C7_revision_monotone_commit_idempotent :
    (∀ (ops : List ClockOp) (op : ClockOp),
      (runClockOp (runClockOps ops) op)._revision = (runClockOps ops)._revision
      ∨ (runClockOp (runClockOps ops) op)._revision = ((runClockOps ops)._revision + 1) % u16)
    ∧ (∀ d : AjaneOutputDriverBase, d.next_revision = d._revision → nextRevision d = d)
    ∧ (∀ d : AjaneOutputDriverBase, nextRevision (nextRevision d) = nextRevision d) := by
  refine ⟨fun ops op => ?_, fun d h => ?_, fun d => rfl⟩
  · cases op with
    | markDirty => exact Or.inl rfl
    | commit =>
      have h := clockInvariant_foldl ops driverCtor clockInvariant_ctor
      cases h with
      | inl h => exact Or.inl (by simp [runClockOp, nextRevision, runClockOps] at h ⊢; omega)
      | inr h => exact Or.inr (by simp [runClockOp, nextRevision, runClockOps] at h ⊢; omega)
  · cases d with
    | mk r n => simp [nextRevision] at h ⊢; omega

/-- Witness for C7 at a concrete input: the constructor state has nothing
pending, so a commit leaves it unchanged. -/
theorem C7_witness : nextRevision driverCtor = driverCtor :=
  C7_revision_monotone_commit_idempotent.2.1 driverCtor rfl

/-! ## Radio groups: `AjaneCheckButton` / `AjaneRadioGroup<NUM>` (src/Ajane.h lines 417-574)

The state of an `AjaneRadioGroup<NUM>` relevant to selection: the `_checked`
booleans of the `NUM` member `AjaneCheckButton`s, their `last_changed`
revisions, the group's `int8_t _current_option`, and the global driver clock.
-/

/-- Conversion of a `uint8_t` value to `int8_t` (assignment
`_current_option = num` resp. `= selected_option` in src/Ajane.h
lines 547, 538, with `_current_option : int8_t`, line 563). -/
def toInt8 (n : Nat) : Int :=
  if n % 256 < 128 then ((n % 256 : Nat) : Int) else ((n % 256 : Nat) : Int) - 256

/-- Conversion of an `int8_t` value back to `uint8_t` (the return of
`selectedOption()`, src/Ajane.h lines 550-552, whose return type is
`uint8_t`). -/
def int8ToUInt8 (i : Int) : Nat := (i % 256).toNat

/-- State of an `AjaneRadioGroup<N>`: the members' `_checked` flags and
`last_changed` revisions, the group's `int8_t _current_option`
(src/Ajane.h line 563) and the driver's Change Clock. -/
structure RGState (N : Nat) where
  checked : Fin N → Bool
  btnRev : Fin N → Nat
  _current_option : Int
  driver : AjaneOutputDriverBase

/-- Modelled from the spec: `AjaneCheckButton::setChecked` is declared at
src/Ajane.h line 427 but its body lives in the missing implementation file.
This is the variant for a radio-group member that does not dispatch back to
the group (used by the group itself when unselecting members, where the new
state is `false` so no dispatch happens): a no-op when the state does not
change, otherwise it stores the new state and marks the member dirty against
the Change Clock (spec 4.2: `last_changed = pending_revision`). -/
def setCheckedPlain {N : Nat} (g : RGState N) (i : Fin N) (b : Bool) : RGState N :=
  if g.checked i = b then g
  else { g with checked := Function.update g.checked i b,
                btnRev := Function.update g.btnRev i (setChanged g.driver).next_revision,
                driver := setChanged g.driver }

/-- `AjaneRadioGroup::selectOption(AjaneCheckButton* which)`
(src/Ajane.h lines 564-573): sets `_current_option = -1`, then for each
member index `i`, if the member is `which` records `_current_option = i`,
otherwise calls `setChecked(false)` on the member. Member identity (pointer
comparison against `buttonpointers[i]`) is embedded as index equality. -/
def selectOptionPtr {N : Nat} (g : RGState N) (which : Fin N) : RGState N :=
  (List.finRange N).foldl
    (fun gs i =>
      if i = which then { gs with _current_option := (i.val : Int) }
      else setCheckedPlain gs i false)
    { g with _current_option := -1 }

/-- Modelled from the spec: full `AjaneCheckButton::setChecked` for a
radio-group member (body in the missing implementation file). Per spec
4.2/4.3: a no-op when the state does not change; otherwise stores the new
state, marks the member dirty, and — when the member becomes checked —
dispatches the group's exclusivity path `selectOption(which)`
(src/Ajane.h lines 564-573). -/
def setCheckedBtn {N : Nat} (g : RGState N) (i : Fin N) (b : Bool) : RGState N :=
  if g.checked i = b then g
  else if b then selectOptionPtr (setCheckedPlain g i b) i
  else setCheckedPlain g i b

/-- `AjaneRadioGroup::selectOption(uint8_t num)` (src/Ajane.h lines 543-548):
for each member index `i` (a `uint8_t` loop counter) calls
`buttons[i].setChecked(i == num)` (a `uint8_t` comparison), then assigns
`_current_option = num` (a `uint8_t` to `int8_t` conversion). -/
def selectOptionIdx {N : Nat} (g : RGState N) (num : Nat) : RGState N :=
  let g1 := (List.finRange N).foldl
    (fun gs i => setCheckedBtn gs i (decide (i.val % 256 = num % 256))) g
  { g1 with _current_option := toInt8 num }

/-- `AjaneRadioGroup::selectedOption()` (src/Ajane.h lines 550-552): returns
`_current_option` as a `uint8_t`. -/
def selectedOption {N : Nat} (g : RGState N) : Nat := int8ToUInt8 g._current_option

/-- The `AjaneRadioGroup` constructor (src/Ajane.h lines 529-541) as far as
selection state is concerned: member `i` is constructed checked iff
`i == selected_option` (a `uint8_t` comparison, line 534) and
`_current_option = selected_option` (line 538). The members' initial
`last_changed` revision is modelled from the spec as the initial clock
revision 1 (the `AjaneElement` constructor body lives in the missing
implementation file). -/
def initGroup (N : Nat) (selected : Nat) (d : AjaneOutputDriverBase) : RGState N :=
  { checked := fun i => decide (i.val % 256 = selected % 256),
    btnRev := fun _ => 1,
    _current_option := toInt8 selected,
    driver := d }

theorem setCheckedPlain_checked {N : Nat} (g : RGState N) (i : Fin N) (b : Bool) (j : Fin N) :
    (setCheckedPlain g i b).checked j = if j = i then b else g.checked j := by
  by_cases h : g.checked i = b
  · by_cases hj : j = i
    · subst hj; simp [setCheckedPlain, h]
    · simp [setCheckedPlain, h, hj]
  · by_cases hj : j = i
    · subst hj; simp [setCheckedPlain, h, Function.update_apply]
    · simp [setCheckedPlain, h, Function.update_apply, hj]

theorem selectOptionPtr_foldl_checked {N : Nat} (which : Fin N) (l : List (Fin N))
    (g : RGState N) (j : Fin N) :
    ((l.foldl (fun gs i =>
        if i = which then { gs with _current_option := (i.val : Int) }
        else setCheckedPlain gs i false) g).checked j)
      = if j ∈ l ∧ j ≠ which then false else g.checked j := by
  induction l generalizing g with
  | nil => simp
  | cons i t ih =>
    simp only [List.foldl_cons]
    rw [ih]
    by_cases hi : i = which
    · subst hi
      by_cases hjt : j ∈ t <;> by_cases hjw : j = i <;>
        simp_all [List.mem_cons]
    · by_cases hjt : j ∈ t <;> by_cases hjw : j = which <;> by_cases hji : j = i <;>
        simp_all [List.mem_cons, setCheckedPlain_checked]

theorem selectOptionPtr_checked {N : Nat} (g : RGState N) (which j : Fin N) :
    (selectOptionPtr g which).checked j = if j = which then g.checked j else false := by
  unfold selectOptionPtr
  rw [selectOptionPtr_foldl_checked]
  by_cases hj : j = which <;> simp [hj, List.mem_finRange]

theorem setCheckedBtn_checked {N : Nat} (g : RGState N) (i : Fin N) (b : Bool) (j : Fin N) :
    (setCheckedBtn g i b).checked j =
      if j = i then b else if b && !(g.checked i) then false else g.checked j := by
  unfold setCheckedBtn
  by_cases h : g.checked i = b
  · by_cases hj : j = i <;> simp_all
  · cases b with
    | false =>
      by_cases hj : j = i <;> simp_all [setCheckedPlain_checked]
    | true =>
      by_cases hj : j = i <;>
        simp_all [selectOptionPtr_checked, setCheckedPlain_checked]

theorem selectIdx_foldl_unvisited_false {N : Nat} (num : Nat) (l : List (Fin N))
    (g : RGState N) (j : Fin N) (hj : j ∉ l) (h : g.checked j = false) :
    ((l.foldl (fun gs i => setCheckedBtn gs i (decide (i.val % 256 = num % 256))) g).checked j)
      = false := by
  induction l generalizing g with
  | nil => exact h
  | cons i t ih =>
    simp only [List.foldl_cons]
    have hji : j ≠ i := fun he => hj (he ▸ List.mem_cons_self i t)
    refine ih _ (fun ht => hj (List.mem_cons_of_mem i ht)) ?_
    rw [setCheckedBtn_checked, if_neg hji]
    by_cases hb : (decide (i.val % 256 = num % 256) && !(g.checked i)) = true <;> simp_all

theorem selectIdx_foldl_unvisited_keep {N : Nat} (num : Nat) (l : List (Fin N))
    (g : RGState N) (j : Fin N) (hj : j ∉ l)
    (hmiss : ∀ i ∈ l, (decide (i.val % 256 = num % 256) : Bool) = false) :
    ((l.foldl (fun gs i => setCheckedBtn gs i (decide (i.val % 256 = num % 256))) g).checked j)
      = g.checked j := by
  induction l generalizing g with
  | nil => rfl
  | cons i t ih =>
    simp only [List.foldl_cons]
    have hji : j ≠ i := fun he => hj (he ▸ List.mem_cons_self i t)
    rw [ih _ (fun ht => hj (List.mem_cons_of_mem i ht))
         (fun x hx => hmiss x (List.mem_cons_of_mem i hx))]
    rw [setCheckedBtn_checked, if_neg hji, hmiss i (List.mem_cons_self i t)]
    simp

theorem selectIdx_foldl_visited {N : Nat} (hN : N ≤ 256) (num : Nat) (l : List (Fin N))
    (g : RGState N) (j : Fin N) (hj : j ∈ l) :
    ((l.foldl (fun gs i => setCheckedBtn gs i (decide (i.val % 256 = num % 256))) g).checked j)
      = decide (j.val % 256 = num % 256) := by
  induction l generalizing g with
  | nil => cases hj
  | cons i t ih =>
    simp only [List.foldl_cons]
    by_cases hjt : j ∈ t
    · exact ih _ hjt
    · have hji : j = i := by
        cases List.mem_cons.mp hj with
        | inl h => exact h
        | inr h => exact absurd h hjt
      subst hji
      have hself : (setCheckedBtn g j (decide (j.val % 256 = num % 256))).checked j
          = decide (j.val % 256 = num % 256) := by
        rw [setCheckedBtn_checked]; simp
      by_cases hb : (decide (j.val % 256 = num % 256) : Bool) = true
      · rw [selectIdx_foldl_unvisited_keep num t _ j hjt ?_, hself]
        intro x hx
        by_cases hxb : (decide (x.val % 256 = num % 256) : Bool) = true
        · exfalso
          have h1 : x.val % 256 = num % 256 := of_decide_eq_true hxb
          have h2 : j.val % 256 = num % 256 := of_decide_eq_true hb
          have hx256 : x.val % 256 = x.val := Nat.mod_eq_of_lt (Nat.lt_of_lt_of_le x.isLt hN)
          have hj256 : j.val % 256 = j.val := Nat.mod_eq_of_lt (Nat.lt_of_lt_of_le j.isLt hN)
          have : x = j := Fin.ext (by omega)
          exact hjt (this ▸ hx)
        · simpa using hxb
      · have hfalse : (setCheckedBtn g j (decide (j.val % 256 = num % 256))).checked j
            = false := by
          rw [hself]; simpa using hb
        rw [selectIdx_foldl_unvisited_false num t _ j hjt hfalse]
        simp only [Bool.not_eq_true] at hb
        exact hb.symm

/-- The net effect of `AjaneRadioGroup::selectOption(uint8_t num)` on the
member booleans: member `j` ends checked iff `j = num` as `uint8_t` values. -/
theorem selectOptionIdx_checked {N : Nat} (hN : N ≤ 256) (g : RGState N) (num : Nat)
    (j : Fin N) :
    (selectOptionIdx g num).checked j = decide (j.val = num % 256) := by
  unfold selectOptionIdx
  have h := selectIdx_foldl_visited hN num (List.finRange N) g j (List.mem_finRange j)
  have hj256 : j.val % 256 = j.val := Nat.mod_eq_of_lt (Nat.lt_of_lt_of_le j.isLt hN)
  simpa [hj256] using h

theorem selectOptionIdx_current {N : Nat} (g : RGState N) (num : Nat) :
    (selectOptionIdx g num)._current_option = toInt8 num := rfl

/-- C2: for every radio group of size `N ≤ 256` and every `uint8_t` index `k`,
after `selectOption(k)` exactly one of the `N` member booleans is true when
`k ∈ [0,N)` and none is true when `k` is outside `[0,N)`; and the inbound
dispatch path (a member reporting it was toggled to checked, which runs the
exclusivity-enforcing `selectOption(AjaneCheckButton*)`) leaves exactly the
toggled member true, never two members true. -/
theorem C2_radio_exclusivity (N : Nat) (g : RGState N) (k : Nat)
    (hk : k < 256) (hN : N ≤ 256) :
    (k < N → ∃! i : Fin N, (selectOptionIdx g k).checked i = true)
    ∧ (N ≤ k → ∀ i : Fin N, (selectOptionIdx g k).checked i = false)
    ∧ (∀ j : Fin N, g.checked j = false →
        ∀ i : Fin N, ((setCheckedBtn g j true).checked i = true ↔ i = j)) := by
  have hk256 : k % 256 = k := Nat.mod_eq_of_lt hk
  refine ⟨fun hkN => ?_, fun hkN i => ?_, fun j hj i => ?_⟩
  · refine ⟨⟨k, hkN⟩, ?_, fun i hi => ?_⟩
    · show (selectOptionIdx g k).checked ⟨k, hkN⟩ = true
      rw [selectOptionIdx_checked hN, hk256]; simp
    · have hi2 : (selectOptionIdx g k).checked i = true := hi
      rw [selectOptionIdx_checked hN, hk256] at hi2
      exact Fin.ext (of_decide_eq_true hi2)
  · rw [selectOptionIdx_checked hN, hk256]
    have : i.val < k := Nat.lt_of_lt_of_le i.isLt hkN
    simp; omega
  · rw [setCheckedBtn_checked]
    by_cases hij : i = j <;> simp_all

/-- Witness for C2 at a concrete input: a radio group of 3 options with
option 0 initially selected; after `selectOption(1)` exactly one member is
checked. -/
theorem C2_witness :
    ∃! i : Fin 3, (selectOptionIdx (initGroup 3 0 driverCtor) 1).checked i = true :=
  (C2_radio_exclusivity 3 (initGroup 3 0 driverCtor) 1 (by decide) (by decide)).1
    (by decide)

/-- C6: for a radio group of 3 options, after `selectOption(1)` then
`selectOption(5)` (out of range), `selectedOption()` returns the out-of-range
sentinel 5 (so ≥ 3, meaning "none selected") and all three member booleans
are false. -/
theorem C6_radio_out_of_range :
    selectedOption (selectOptionIdx (selectOptionIdx (initGroup 3 0 driverCtor) 1) 5) = 5
    ∧ 3 ≤ selectedOption (selectOptionIdx (selectOptionIdx (initGroup 3 0 driverCtor) 1) 5)
    ∧ ∀ i : Fin 3,
        (selectOptionIdx (selectOptionIdx (initGroup 3 0 driverCtor) 1) 5).checked i = false := by
  decide

/-! ## Radio group child ids (`AjaneRadioGroup` constructor, src/Ajane.h lines 529-541)

The constructor builds the id of member `i` in the 16-byte buffer
`childids[i]` via `strncpy(childid, id_base, ARDUJAX_MAX_ID_LEN-4)` followed
by `itoa(i, &(childid[strlen(childid)]), 10)`.
-/

/-- `#define ARDUJAX_MAX_ID_LEN 16` (src/Ajane.h line 26). -/
def ARDUJAX_MAX_ID_LEN : Nat := 16

/-- The characters deposited by `strncpy(dst, src, n)`: the first `n`
characters of `src` (when `src` is shorter than `n`, all of it, and the copy
is NUL-terminated). -/
def strncpyTake (src : List Char) (n : Nat) : List Char := src.take n

/-- The characters deposited by `itoa(i, buf, 10)` for a non-negative value:
the decimal digit characters of `i`, most significant first ("0" for 0). -/
def itoaDec (n : Nat) : List Char :=
  if n = 0 then ['0'] else ((Nat.digits 10 n).reverse.map Nat.digitChar)

/-- The id generated for member `i` of an `AjaneRadioGroup` (src/Ajane.h
lines 531-533): the `strncpy`-copied base followed by the decimal digits of
the `uint8_t` loop index `i`, appended at the end of the copied base. -/
def childId (id_base : List Char) (i : Nat) : List Char :=
  strncpyTake id_base (ARDUJAX_MAX_ID_LEN - 4) ++ itoaDec (i % 256)

theorem digitChar_inj_lt {a b : Nat} (ha : a < 10) (hb : b < 10)
    (h : Nat.digitChar a = Nat.digitChar b) : a = b := by
  interval_cases a <;> interval_cases b <;> first | rfl | (exfalso; revert h; decide)

theorem map_digitChar_inj : ∀ (xs ys : List Nat), (∀ x ∈ xs, x < 10) →
    (∀ y ∈ ys, y < 10) → xs.map Nat.digitChar = ys.map Nat.digitChar → xs = ys := by
  intro xs
  induction xs with
  | nil =>
    intro ys _ _ h
    cases ys with
    | nil => rfl
    | cons y s => simp at h
  | cons x t ih =>
    intro ys hx hy h
    cases ys with
    | nil => simp at h
    | cons y s =>
      simp only [List.map_cons, List.cons.injEq] at h
      have hxy : x = y :=
        digitChar_inj_lt (hx x (List.mem_cons_self x t)) (hy y (List.mem_cons_self y s)) h.1
      have hts : t = s := ih s (fun a ha => hx a (List.mem_cons_of_mem x ha))
        (fun a ha => hy a (List.mem_cons_of_mem y ha)) h.2
      rw [hxy, hts]

theorem itoaDec_singleton_zero {n : Nat} (hn : n ≠ 0)
    (h : (Nat.digits 10 n).reverse.map Nat.digitChar = ['0']) : False := by
  have hlen : (Nat.digits 10 n).length = 1 := by
    have := congrArg List.length h
    simpa using this
  obtain ⟨d, hd⟩ := List.length_eq_one.mp hlen
  have hd10 : d < 10 := Nat.digits_lt_base (by norm_num) (hd ▸ List.mem_singleton_self d)
  have hchar : Nat.digitChar d = '0' := by
    rw [hd] at h
    simpa using h
  have hd0 : d = 0 := digitChar_inj_lt hd10 (by norm_num) (by simpa using hchar)
  have hlast := Nat.getLast_digit_ne_zero 10 hn
  simp [hd, hd0] at hlast

theorem itoaDec_inj {m n : Nat} (h : itoaDec m = itoaDec n) : m = n := by
  unfold itoaDec at h
  by_cases hm : m = 0 <;> by_cases hn : n = 0
  · omega
  · rw [if_pos hm, if_neg hn] at h
    exact absurd h.symm (fun hc => itoaDec_singleton_zero hn hc)
  · rw [if_neg hm, if_pos hn] at h
    exact absurd h (fun hc => itoaDec_singleton_zero hm hc)
  · rw [if_neg hm, if_neg hn] at h
    have hrev : (Nat.digits 10 m).reverse = (Nat.digits 10 n).reverse :=
      map_digitChar_inj _ _
        (fun x hx => Nat.digits_lt_base (by norm_num) (List.mem_reverse.mp hx))
        (fun y hy => Nat.digits_lt_base (by norm_num) (List.mem_reverse.mp hy)) h
    have hdig : Nat.digits 10 m = Nat.digits 10 n := List.reverse_inj.mp hrev
    have := congrArg (Nat.ofDigits 10) hdig
    rwa [Nat.ofDigits_digits, Nat.ofDigits_digits] at this

theorem itoaDec_length_le {n : Nat} (h : n < 1000) : (itoaDec n).length ≤ 3 := by
  unfold itoaDec
  by_cases hn : n = 0
  · simp [hn]
  · rw [if_neg hn]
    simp only [List.length_map, List.length_reverse]
    rw [Nat.digits_len 10 n (by norm_num) hn]
    have := Nat.log_lt_of_lt_pow hn (show n < 10 ^ 3 by omega)
    omega

/-- C9: for every `AjaneRadioGroup` of size `N ≤ 256` built from an `id_base`
of length at most 11, the generated id of member `i` is `id_base` followed by
the decimal representation of `i`, the ids are pairwise distinct, and every
generated id plus its NUL terminator fits in the 16-byte
(`ARDUJAX_MAX_ID_LEN`) per-member buffer. -/
theorem C9_radio_child_ids (N : Nat) (id_base : List Char) (i j : Nat)
    (hN : N ≤ 256) (hbase : id_base.length ≤ 11) (hi : i < N) (hj : j < N) :
    childId id_base i = id_base ++ itoaDec i
    ∧ (childId id_base i = childId id_base j → i = j)
    ∧ (childId id_base i).length + 1 ≤ ARDUJAX_MAX_ID_LEN := by
  have hi256 : i % 256 = i := Nat.mod_eq_of_lt (Nat.lt_of_lt_of_le hi hN)
  have hj256 : j % 256 = j := Nat.mod_eq_of_lt (Nat.lt_of_lt_of_le hj hN)
  have htake : strncpyTake id_base (ARDUJAX_MAX_ID_LEN - 4) = id_base :=
    List.take_of_length_le (Nat.le_trans hbase (by decide))
  refine ⟨by rw [childId, htake, hi256], fun h => ?_, ?_⟩
  · rw [childId, childId] at h
    have h2 := List.append_cancel_left h
    rw [hi256, hj256] at h2
    exact itoaDec_inj h2
  · have hlen : (itoaDec (i % 256)).length ≤ 3 := itoaDec_length_le (by omega)
    have : (childId id_base i).length = id_base.length + (itoaDec (i % 256)).length := by
      rw [childId, htake, List.length_append]
    rw [ARDUJAX_MAX_ID_LEN]
    omega

/-- Witness for C9 at a concrete input: base id "opt", members 1 and 2 of a
group of 3. -/
theorem C9_witness :
    childId ['o', 'p', 't'] 1 = ['o', 'p', 't'] ++ itoaDec 1
    ∧ (childId ['o', 'p', 't'] 1 = childId ['o', 'p', 't'] 2 → 1 = 2)
    ∧ (childId ['o', 'p', 't'] 1).length + 1 ≤ ARDUJAX_MAX_ID_LEN :=
  C9_radio_child_ids 3 ['o', 'p', 't'] 1 2 (by decide) (by decide) (by decide) (by decide)

/-! ## Synchronization Walk: `sendUpdates` (src/Ajane.h lines 51-53, 242, 458-460, 504-508)

A widget tree is embedded as a forest: a sibling list whose entries are leaf
elements (`AjaneElement`), containers (`AjaneContainer`) or hideable
containers (`AjaneHideableContainer`, an element plus a child list). The
sibling-list structure directly embeds the child-array loop of
`AjaneBase::sendUpdates(children, num, since, first)`, which passes
`!sent && first` to each child in order.

The payload is abstracted as a token list: `,` delimiters and one aggregated
record per changed element.
-/

/-- One token of the serialized diff payload: a `,` delimiter or one
changed-widget record. -/
inductive Tok where
  | comma : Tok
  | record (id : String) : Tok
deriving DecidableEq, Repr

/-- A widget forest: a sibling list of elements, containers and hideable
containers. `elem id rev rest` is a leaf `AjaneElement` with `last_changed`
revision `rev` followed by its siblings; `container cs rest` is an
`AjaneContainer` with children `cs`; `hideable id rev cs rest` is an
`AjaneHideableContainer` (itself an element with id and revision) with
children `cs`. -/
inductive Forest where
  | nil : Forest
  | elem (id : String) (rev : Nat) (rest : Forest) : Forest
  | container (cs : Forest) (rest : Forest) : Forest
  | hideable (id : String) (rev : Nat) (cs : Forest) (rest : Forest) : Forest
deriving DecidableEq, Repr

/-- Modelled from the spec: `AjaneElement::changed(uint16_t since)` is declared
at src/Ajane.h line 286 but its body lives in the missing implementation
file. Per spec 4.2, `has_changed_since(since)` compares `last_changed`
against `since` per the Change Clock's comparison rule, i.e. the element has
changed iff `since < last_changed` (spec 3 and 9 leave the wraparound policy
open; the plain strict comparison is the documented baseline). -/
def hasChangedSince (rev since : Nat) : Bool := decide (since < rev)

/-- Modelled from the spec: `AjaneElement::sendUpdates(since, first)`
(declared at src/Ajane.h line 242, body in the missing implementation file).
If the element has not changed since `since` it writes nothing and returns
false; otherwise it writes a `,` first when `first` is false (doc comment at
src/Ajane.h line 48), then its one aggregated record, and returns true. -/
def elemSendTokens (id : String) (rev since : Nat) (first : Bool) : List Tok × Bool :=
  if hasChangedSince rev since then
    ((if first then [] else [Tok.comma]) ++ [Tok.record id], true)
  else ([], false)

/-- `sendUpdates` over a forest. The sibling recursion embeds the child-array
loop `AjaneBase::sendUpdates(children, num, since, first)` (declared at
src/Ajane.h line 91, body modelled from the spec: each child in order is
passed `first && !sent-so-far`, and the results are OR-ed); the `container`
case is `AjaneContainer::sendUpdates` (src/Ajane.h lines 458-460) and the
`hideable` case is `AjaneHideableContainer::sendUpdates` (src/Ajane.h lines
504-508): `sent = AjaneElement::sendUpdates(since, first); sent2 =
_childlist.sendUpdates(since, first && !sent); return sent || sent2`. -/
def sendUpdatesForest : Forest → Nat → Bool → List Tok × Bool
  | Forest.nil, _, _ => ([], false)
  | Forest.elem id rev rest, since, first =>
    let p := elemSendTokens id rev since first
    let q := sendUpdatesForest rest since (first && !p.2)
    (p.1 ++ q.1, p.2 || q.2)
  | Forest.container cs rest, since, first =>
    let p := sendUpdatesForest cs since first
    let q := sendUpdatesForest rest since (first && !p.2)
    (p.1 ++ q.1, p.2 || q.2)
  | Forest.hideable id rev cs rest, since, first =>
    let e := elemSendTokens id rev since first
    let c := sendUpdatesForest cs since (first && !e.2)
    let q := sendUpdatesForest rest since (first && !(e.2 || c.2))
    ((e.1 ++ c.1) ++ q.1, (e.2 || c.2) || q.2)

/-- All elements of a forest (id and `last_changed` revision), in emission
order. -/
def widgetsForest : Forest → List (String × Nat)
  | Forest.nil => []
  | Forest.elem id rev rest => (id, rev) :: widgetsForest rest
  | Forest.container cs rest => widgetsForest cs ++ widgetsForest rest
  | Forest.hideable id rev cs rest => (id, rev) :: (widgetsForest cs ++ widgetsForest rest)

/-- The ids of the elements changed since `since`, in emission order. -/
def changedIds (f : Forest) (since : Nat) : List String :=
  ((widgetsForest f).filter (fun w => hasChangedSince w.2 since)).map Prod.fst

/-- The shape of the emitted token list for a record list: each record is
preceded by a `,` except a first record emitted under `first = true`. -/
def emitForm (first : Bool) : List String → List Tok
  | [] => []
  | id :: rest => (if first then [] else [Tok.comma]) ++ (Tok.record id :: emitForm false rest)

theorem emitForm_append (l1 l2 : List String) (first : Bool) :
    emitForm first (l1 ++ l2) = emitForm first l1 ++ emitForm (first && l1.isEmpty) l2 := by
  induction l1 generalizing first with
  | nil => simp [emitForm]
  | cons x t ih =>
    simp only [List.cons_append, emitForm, List.isEmpty_cons, Bool.and_false, List.append_eq]
    rw [ih false]
    cases first <;> simp [emitForm]

theorem isEmpty_append_eq {α : Type} (a b : List α) :
    (a ++ b).isEmpty = (a.isEmpty && b.isEmpty) := by
  cases a <;> simp

theorem changedIds_elem (id : String) (rev : Nat) (rest : Forest) (since : Nat) :
    changedIds (Forest.elem id rev rest) since
      = (if hasChangedSince rev since then [id] else []) ++ changedIds rest since := by
  by_cases h : hasChangedSince rev since = true <;>
    simp [changedIds, widgetsForest, List.filter_cons, h]

theorem changedIds_container (cs rest : Forest) (since : Nat) :
    changedIds (Forest.container cs rest) since
      = changedIds cs since ++ changedIds rest since := by
  simp [changedIds, widgetsForest, List.filter_append]

theorem changedIds_hideable (id : String) (rev : Nat) (cs rest : Forest) (since : Nat) :
    changedIds (Forest.hideable id rev cs rest) since
      = (if hasChangedSince rev since then [id] else [])
        ++ (changedIds cs since ++ changedIds rest since) := by
  by_cases h : hasChangedSince rev since = true <;>
    simp [changedIds, widgetsForest, List.filter_cons, List.filter_append, h]

/-- The `sendUpdates` walk over a forest emits exactly the changed-element
records in order, with the `first` flag governing the delimiters: each record
is preceded by a `,` except a first record emitted under `first = true`; the
returned boolean says whether any record was written. -/
theorem sendUpdatesForest_eq (f : Forest) (since : Nat) :
    ∀ first, sendUpdatesForest f since first
      = (emitForm first (changedIds f since), !(changedIds f since).isEmpty) := by
  induction f with
  | nil => intro first; rfl
  | elem id rev rest ih =>
    intro first
    by_cases hb : hasChangedSince rev since = true <;>
      simp [sendUpdatesForest, elemSendTokens, hb, ih, changedIds_elem, emitForm]
  | container cs rest ihc ihr =>
    intro first
    simp only [sendUpdatesForest, ihc, ihr, changedIds_container, Prod.mk.injEq]
    constructor
    · rw [emitForm_append]
      simp
    · rw [isEmpty_append_eq]
      cases (changedIds cs since).isEmpty <;> simp
  | hideable id rev cs rest ihc ihr =>
    intro first
    simp only [sendUpdatesForest, ihc, ihr, changedIds_hideable, Prod.mk.injEq]
    by_cases hb : hasChangedSince rev since = true
    · constructor
      · rw [emitForm_append, emitForm_append]
        simp [elemSendTokens, hb, emitForm, isEmpty_append_eq]
      · simp [elemSendTokens, hb, isEmpty_append_eq]
    · constructor
      · rw [emitForm_append, emitForm_append]
        simp [elemSendTokens, hb, emitForm, isEmpty_append_eq]
      · simp [elemSendTokens, hb, isEmpty_append_eq]

theorem emitForm_false_cons (z : String) (r : List String) :
    emitForm false (z :: r) = Tok.comma :: emitForm true (z :: r) := rfl

theorem emitForm_true_intersperse : ∀ l : List String,
    emitForm true l = List.intersperse Tok.comma (l.map Tok.record)
  | [] => rfl
  | [_] => rfl
  | x :: y :: t => by
    rw [show emitForm true (x :: y :: t) = Tok.record x :: emitForm false (y :: t) from rfl,
        emitForm_false_cons, emitForm_true_intersperse (y :: t)]
    simp [List.intersperse_cons_cons]

theorem intersperse_head_eq {α : Type} (s : α) (l : List α) :
    (List.intersperse s l).head? = l.head? := by
  cases l with
  | nil => rfl
  | cons x t => cases t <;> rfl

theorem intersperse_getLast_eq {α : Type} (s : α) : ∀ l : List α,
    (List.intersperse s l).getLast? = l.getLast?
  | [] => rfl
  | [_] => rfl
  | x :: y :: t => by
    have ih := intersperse_getLast_eq s (y :: t)
    have hne : ∃ a l2, List.intersperse s (y :: t) = a :: l2 := by
      cases t with
      | nil => exact ⟨y, [], rfl⟩
      | cons z r =>
        exact ⟨y, s :: List.intersperse s (z :: r), by rw [List.intersperse_cons_cons]⟩
    obtain ⟨a, l2, hal⟩ := hne
    calc (List.intersperse s (x :: y :: t)).getLast?
        = (x :: s :: List.intersperse s (y :: t)).getLast? := by
          rw [List.intersperse_cons_cons]
      _ = (List.intersperse s (y :: t)).getLast? := by
          rw [hal, List.getLast?_cons_cons, List.getLast?_cons_cons]
      _ = (y :: t).getLast? := ih
      _ = (x :: y :: t).getLast? := (List.getLast?_cons_cons).symm

theorem record_mem_emitForm (id : String) : ∀ (l : List String) (b : Bool),
    (Tok.record id ∈ emitForm b l ↔ id ∈ l)
  | [], b => by simp [emitForm]
  | x :: t, b => by
    have ih := record_mem_emitForm id t false
    cases b <;> simp [emitForm, ih]

/-- C8: in the diff payload the `first` flag threaded through `sendUpdates`
denotes "first record of the whole payload": the emitted token list under any
`first` value is exactly `emitForm first` of the changed-element ids, so the
top-level payload (started with `first = true`) is the comma-interspersed
record list for arbitrarily nested composites — a `,` precedes a record iff
it is not the first record of the whole payload, and the payload has no
leading or trailing delimiter (its first and last tokens are the first and
last records). -/
theorem C8_first_flag_delimiters (f : Forest) (since : Nat) (first : Bool) :
    (sendUpdatesForest f since first).1 = emitForm first (changedIds f since)
    ∧ (sendUpdatesForest f since true).1
        = List.intersperse Tok.comma ((changedIds f since).map Tok.record)
    ∧ (sendUpdatesForest f since true).1.head?
        = ((changedIds f since).map Tok.record).head?
    ∧ (sendUpdatesForest f since true).1.getLast?
        = ((changedIds f since).map Tok.record).getLast? := by
  refine ⟨by rw [sendUpdatesForest_eq], ?_, ?_, ?_⟩
  · rw [sendUpdatesForest_eq]
    exact emitForm_true_intersperse _
  · rw [sendUpdatesForest_eq]
    show (emitForm true (changedIds f since)).head? = _
    rw [emitForm_true_intersperse, intersperse_head_eq]
  · rw [sendUpdatesForest_eq]
    show (emitForm true (changedIds f since)).getLast? = _
    rw [emitForm_true_intersperse, intersperse_getLast_eq]

/-- C4: a widget appears in the diff payload produced by `sendUpdates(R, first)`
iff its `last_changed` revision is strictly newer than the baseline `R`
(under the modelled comparison rule `R < last_changed`); an element none of
whose properties were touched since `R` never appears. -/
theorem C4_minimal_diff (f : Forest) (since : Nat) (id : String) :
    Tok.record id ∈ (sendUpdatesForest f since true).1
      ↔ ∃ rev, (id, rev) ∈ widgetsForest f ∧ since < rev := by
  rw [sendUpdatesForest_eq]
  show Tok.record id ∈ emitForm true (changedIds f since) ↔ _
  rw [record_mem_emitForm]
  unfold changedIds
  simp only [List.mem_map, List.mem_filter]
  constructor
  · rintro ⟨⟨a, b⟩, ⟨hmem, hp⟩, heq⟩
    have ha : a = id := heq
    subst ha
    have hp2 : since < b := by simpa [hasChangedSince] using hp
    exact ⟨b, hmem, hp2⟩
  · rintro ⟨rev, hmem, hlt⟩
    exact ⟨(id, rev), ⟨hmem, by simp [hasChangedSince, hlt]⟩, rfl⟩

/-! ## Update requests: `handleRequest` and text inputs

A page of text-input widgets (`AjaneTextInput<SIZE>`, src/Ajane.h lines
324-350) together with the driver clock. The request-level Update protocol
(`AjaneBase::handleRequest`, declared at src/Ajane.h line 97, body in the
missing implementation file) is modelled from the spec, section 4.4.
-/

/-- State of one `AjaneTextInput<SIZE>`: its id, the template size `SIZE` of
the `char _value[SIZE]` buffer (src/Ajane.h line 349), the buffer's string
content, and the element's `last_changed` revision. -/
structure TextWidget where
  id : String
  cap : Nat
  val : List Char
  rev : Nat
deriving DecidableEq, Repr

/-- A page: its widgets in order, and the driver's Change Clock. -/
structure PageState where
  widgets : List TextWidget
  driver : AjaneOutputDriverBase
deriving DecidableEq, Repr

/-- `AjaneOutputDriverESP8266::getArg(name, buf, buflen)` (src/Ajane.h lines
167-170): `_server->arg(name).toCharArray(buf, buflen)`. Arduino's
`String::toCharArray` copies at most `buflen - 1` characters and writes a NUL
terminator, so the deposited string is the argument truncated to
`buflen - 1` characters. -/
def getArgESP8266 (arg : List Char) (buflen : Nat) : List Char := arg.take (buflen - 1)

/-- `AjaneTextInput<SIZE>::updateFromDriverArg(argname)` (src/Ajane.h lines
345-347): `_driver->getArg(argname, _value, SIZE)` — the new buffer content
for an inbound value. -/
def textInputUpdateFromDriverArg (SIZE : Nat) (arg : List Char) : List Char :=
  getArgESP8266 arg SIZE

/-- The observable events of one Update request, in order of occurrence. -/
inductive RequestEv where
  | applyField (id : String) : RequestEv
  | hookRun : RequestEv
  | commitRun : RequestEv
  | diffRun : RequestEv
deriving DecidableEq, Repr

/-- Modelled from the spec (4.4): the inbound-application pass of an Update
request. For every widget in order, if the transport reports a present value
for the widget's id, the value is applied via `updateFromDriverArg` and the
widget is marked changed against the Change Clock (`last_changed` becomes the
pending revision); widgets without a present field are left untouched.
Returns the updated widgets, the updated driver and the apply events. -/
def applyInboundList : List TextWidget → (String → Option (List Char)) →
    AjaneOutputDriverBase → List TextWidget × AjaneOutputDriverBase × List RequestEv
  | [], _, d => ([], d, [])
  | w :: ws, fields, d =>
    match fields w.id with
    | none =>
      let r := applyInboundList ws fields d
      (w :: r.1, r.2.1, r.2.2)
    | some v =>
      let d1 := setChanged d
      let w1 : TextWidget := { w with val := textInputUpdateFromDriverArg w.cap v,
                                      rev := d1.next_revision }
      let r := applyInboundList ws fields d1
      (w1 :: r.1, r.2.1, RequestEv.applyField w.id :: r.2.2)

/-- The page state after the inbound-application pass. -/
def afterApply (p : PageState) (fields : String → Option (List Char)) : PageState :=
  { widgets := (applyInboundList p.widgets fields p.driver).1,
    driver := (applyInboundList p.widgets fields p.driver).2.1 }

/-- The diff payload over a page at a baseline revision: the (id, value)
records of the widgets changed since the baseline, in page order. -/
def diffPage (p : PageState) (since : Nat) : List (String × List Char) :=
  (p.widgets.filter (fun w => hasChangedSince w.rev since)).map (fun w => (w.id, w.val))

/-- Modelled from the spec: the Update entry point of the Synchronization
Walk, `AjaneBase::handleRequest(children, num, change_callback)` (declared at
src/Ajane.h line 97, body in the missing implementation file). Per spec 4.4:
apply all present inbound field values, then invoke the caller-supplied
reaction hook exactly once, then commit (`nextRevision`), then compute the
diff against the client-supplied baseline revision. Returns the post-request
page, the diff payload, the new baseline revision and the event trace. -/
def handleRequestPage (p : PageState) (fields : String → Option (List Char))
    (clientSince : Nat) (hook : PageState → PageState) :
    PageState × List (String × List Char) × Nat × List RequestEv :=
  let p1 := afterApply p fields
  let p2 := hook p1
  let p3 : PageState := { p2 with driver := nextRevision p2.driver }
  (p3, diffPage p3 clientSince, revision p3.driver,
    (applyInboundList p.widgets fields p.driver).2.2
      ++ [RequestEv.hookRun, RequestEv.commitRun, RequestEv.diffRun])

theorem applyInboundList_events (ws : List TextWidget)
    (fields : String → Option (List Char)) (d : AjaneOutputDriverBase) :
    ∃ ids : List String,
      (applyInboundList ws fields d).2.2 = ids.map RequestEv.applyField := by
  induction ws generalizing d with
  | nil => exact ⟨[], rfl⟩
  | cons w t ih =>
    cases hf : fields w.id with
    | none =>
      obtain ⟨ids, hids⟩ := ih d
      exact ⟨ids, by simp [applyInboundList, hf, hids]⟩
    | some v =>
      obtain ⟨ids, hids⟩ := ih (setChanged d)
      exact ⟨w.id :: ids, by simp [applyInboundList, hf, hids]⟩

theorem applyInboundList_revision (ws : List TextWidget)
    (fields : String → Option (List Char)) (d : AjaneOutputDriverBase) :
    (applyInboundList ws fields d).2.1._revision = d._revision := by
  induction ws generalizing d with
  | nil => rfl
  | cons w t ih =>
    cases hf : fields w.id with
    | none => simp [applyInboundList, hf, ih d]
    | some v =>
      simp only [applyInboundList, hf]
      exact ih (setChanged d)

theorem applyInboundList_mem (ws : List TextWidget)
    (fields : String → Option (List Char)) (d : AjaneOutputDriverBase)
    (w : TextWidget) (v : List Char) (hw : w ∈ ws) (hf : fields w.id = some v) :
    { w with val := textInputUpdateFromDriverArg w.cap v,
             rev := (d._revision + 1) % u16 } ∈ (applyInboundList ws fields d).1 := by
  induction ws generalizing d with
  | nil => cases hw
  | cons x t ih =>
    cases List.mem_cons.mp hw with
    | inl hx =>
      subst hx
      simp [applyInboundList, hf, setChanged]
    | inr ht =>
      cases hfx : fields x.id with
      | none =>
        simp only [applyInboundList, hfx]
        exact List.mem_cons_of_mem _ (ih d ht)
      | some vx =>
        simp only [applyInboundList, hfx]
        refine List.mem_cons_of_mem _ ?_
        have := ih (setChanged d) ht
        simpa [setChanged] using this

/-- C3: for every Update request, the event trace is all inbound field
applications, then the reaction hook exactly once, then commit, then the
diff; and the diff is computed against the client-supplied baseline over the
committed state, so — when the client supplies the current visible revision
and the hook leaves the applied state unchanged — the response contains the
change the client's own submission triggered. -/
theorem C3_update_ordering (p : PageState) (fields : String → Option (List Char))
    (since : Nat) (hook : PageState → PageState) (w : TextWidget) (v : List Char) :
    (∃ ids : List String,
      (handleRequestPage p fields since hook).2.2.2
        = ids.map RequestEv.applyField
          ++ [RequestEv.hookRun, RequestEv.commitRun, RequestEv.diffRun])
    ∧ (handleRequestPage p fields since hook).2.2.2.count RequestEv.hookRun = 1
    ∧ (w ∈ p.widgets → fields w.id = some v → since = p.driver._revision →
        p.driver._revision + 1 < u16 →
        hook (afterApply p fields) = afterApply p fields →
        (w.id, textInputUpdateFromDriverArg w.cap v)
          ∈ (handleRequestPage p fields since hook).2.1) := by
  obtain ⟨ids, hids⟩ := applyInboundList_events p.widgets fields p.driver
  refine ⟨⟨ids, ?_⟩, ?_, fun hw hf hsince hlt hhook => ?_⟩
  · show (applyInboundList p.widgets fields p.driver).2.2 ++ _ = _
    rw [hids]
  · show ((applyInboundList p.widgets fields p.driver).2.2
      ++ [RequestEv.hookRun, RequestEv.commitRun, RequestEv.diffRun]).count
        RequestEv.hookRun = 1
    rw [hids, List.count_append]
    have hz : (ids.map RequestEv.applyField).count RequestEv.hookRun = 0 := by
      rw [List.count_eq_zero]
      simp
    rw [hz]
    rfl
  · subst hsince
    have hmem := applyInboundList_mem p.widgets fields p.driver w v hw hf
    show (w.id, textInputUpdateFromDriverArg w.cap v)
      ∈ diffPage { hook (afterApply p fields) with
                    driver := nextRevision (hook (afterApply p fields)).driver }
          p.driver._revision
    rw [hhook]
    unfold diffPage
    apply List.mem_map.mpr
    refine ⟨{ w with val := textInputUpdateFromDriverArg w.cap v,
                     rev := (p.driver._revision + 1) % u16 }, ?_, rfl⟩
    refine List.mem_filter.mpr ⟨hmem, ?_⟩
    have hmod : (p.driver._revision + 1) % u16 = p.driver._revision + 1 :=
      Nat.mod_eq_of_lt hlt
    simp [hasChangedSince, hmod]

/-- The spec's scenario page: one text input "name" with capacity 8, fresh
clock. -/
def examplePage : PageState :=
  { widgets := [{ id := "name", cap := 8, val := [], rev := 1 }], driver := driverCtor }

/-- The spec's scenario field map: the single field "name" carries "Alice". -/
def exampleFields : String → Option (List Char) :=
  fun id => if id = "name" then some "Alice".toList else none

/-- Witness for C3 at a concrete input: the Update request carrying
field "name" = "Alice" against a page at revision 1 returns a diff that
contains the client's own change. -/
theorem C3_witness :
    ("name", "Alice".toList)
      ∈ (handleRequestPage examplePage exampleFields 1 (fun s => s)).2.1 :=
  (C3_update_ordering examplePage exampleFields 1 (fun s => s)
      { id := "name", cap := 8, val := [], rev := 1 } "Alice".toList).2.2
    (by decide) (by decide) rfl (by decide) rfl

/-- Counterexample to C5 as stated: for a text input of capacity 8, the
inbound value "AliceAndBob" is stored as "AliceAn" (7 characters: the
`char _value[8]` buffer holds at most `SIZE - 1` characters plus the NUL
terminator written by `toCharArray`), not as the claimed 9-character
"AliceAndB". -/
theorem C5_truncation_counterexample :
    textInputUpdateFromDriverArg 8 "AliceAndBob".toList = "AliceAn".toList
    ∧ textInputUpdateFromDriverArg 8 "AliceAndBob".toList ≠ "AliceAndB".toList := by
  decide

/-- C5 (amended): for the capacity-8 text input "name", an Update carrying
"Alice" stores "Alice" unchanged and the returned diff contains
("name", "Alice") at new revision 2; an inbound "AliceAndBob" is stored
truncated to `SIZE - 1 = 7` characters, "AliceAn" — in general every inbound
text value is truncated to the widget's capacity minus the NUL terminator,
never rejected. -/
theorem C5_truncation_amended :
    textInputUpdateFromDriverArg 8 "Alice".toList = "Alice".toList
    ∧ textInputUpdateFromDriverArg 8 "AliceAndBob".toList = "AliceAn".toList
    ∧ (handleRequestPage examplePage exampleFields 1 (fun s => s)).2.1
        = [("name", "Alice".toList)]
    ∧ (handleRequestPage examplePage exampleFields 1 (fun s => s)).2.2.1 = 2
    ∧ (∀ (SIZE : Nat) (arg : List Char),
        (textInputUpdateFromDriverArg SIZE arg).length ≤ SIZE - 1) := by
  refine ⟨by decide, by decide, by decide, by decide, fun SIZE arg => ?_⟩
  simp only [textInputUpdateFromDriverArg, getArgESP8266, List.length_take]
  exact Nat.min_le_left _ _

/-! ## Frame effect of `setVisible` / `setEnabled` on non-element objects -/

/-- State of an `AjaneStatic` (src/Ajane.h lines 188-199): just its content
pointer. `AjaneConnectionIndicator` (src/Ajane.h lines 208-222) likewise
holds only content pointers; neither class overrides `setBasicProperty`. -/
structure AjaneStaticState where
  _content : String
deriving DecidableEq, Repr

/-- A world containing an object whose concrete type does not override
`setBasicProperty`, together with the driver's Change Clock. -/
structure StaticWorld where
  widget : AjaneStaticState
  driver : AjaneOutputDriverBase
deriving DecidableEq, Repr

/-- `AjaneBase::setBasicProperty` (src/Ajane.h line 83): the default body is
empty (`{}`), so for any object whose concrete type does not override it
(e.g. `AjaneStatic`, `AjaneConnectionIndicator`) nothing changes. -/
def setBasicProperty (w : StaticWorld) (_num : Nat) (_status : Bool) : StaticWorld := w

/-- `AjaneBase::setVisible(visible)` (src/Ajane.h lines 61-63):
`setBasicProperty(Visibility, visible)` with `Visibility = 0`
(src/Ajane.h line 70). -/
def setVisible (w : StaticWorld) (visible : Bool) : StaticWorld :=
  setBasicProperty w 0 visible

/-- `AjaneBase::setEnabled(enabled)` (src/Ajane.h lines 66-68):
`setBasicProperty(Enabledness, enabled)` with `Enabledness = 1`
(src/Ajane.h line 71). -/
def setEnabled (w : StaticWorld) (enabled : Bool) : StaticWorld :=
  setBasicProperty w 1 enabled

/-- C10: calling `setVisible` or `setEnabled` on an object whose concrete
type does not override `setBasicProperty` changes no state at all — the
whole world (widget state and Change Clock) is unchanged; in particular the
pending revision is untouched. -/
theorem C10_static_setBasicProperty_frame (w : StaticWorld) (b : Bool) :
    setVisible w b = w ∧ setEnabled w b = w
    ∧ (setVisible w b).driver.next_revision = w.driver.next_revision
    ∧ (setEnabled w b).driver.next_revision = w.driver.next_revision :=
  ⟨rfl, rfl, rfl, rfl⟩
